import Mathlib

/-!
# StickyView: node registry, ancestor resolver, resize pass, construction

A shallow embedding of `src/StickyView.js` (Backbone.StickyView).

* Nodes and views are identified by natural numbers.
* JavaScript values that the resize handler stores in its variables are kept
  in `Val`, because the handler's loop condition assigns a boolean to the
  variable `parentView`.
* jQuery and Backbone are libraries outside the repository; the part of their
  behaviour the source relies on (`data`, `closest`, `parent`, the marker
  class query, `_ensureElement`, the markup parser, which nodes take data and
  classes) is modelled by the fields of `World` and `Env`.
-/

namespace StickyView

/-! ## JavaScript values -/

/-- The JavaScript values that can reach the variables of the source:
`undefined`, `null`, a boolean, or a view object (identified by its id). -/
inductive Val where
  | undefined : Val
  | null : Val
  | bool (b : Bool) : Val
  | obj (v : Nat) : Val
  deriving DecidableEq, Repr

/-- JavaScript truthiness. -/
def Val.truthy : Val → Bool
  | .undefined => false
  | .null => false
  | .bool b => b
  | .obj _ => true

/-- Whether a value is a view object. -/
def Val.isObj : Val → Bool
  | .obj _ => true
  | _ => false

/-- JavaScript `a || b`. -/
def Val.or (a b : Val) : Val := if a.truthy then a else b

/-- JavaScript `a && b`. -/
def Val.and (a b : Val) : Val := if a.truthy then b else a

/-- Underscore `_.indexOf(array, item)`: position of the first element that is
strictly equal to `item`, or `-1`. -/
def indexOf (array : List Val) (item : Val) : Int :=
  if item ∈ array then (array.indexOf item : Int) else -1

/-- JavaScript `array.splice(start, 1)`: a negative `start` counts back from
the last position (clamped at 0), a `start` past the last entry removes
nothing. -/
def splice (array : List Val) (start : Int) : List Val :=
  let s : Int := if start < 0 then max ((array.length : Int) + start) 0 else start
  array.eraseIdx s.toNat

/-! ## Document, registry, views -/

/-- Node-attached metadata written by `_render`: the jQuery data entry stored
under `DATA_ID` (the owning view) and the presence of `MARKER_CLASS`. They are
independent attributes of a node. -/
structure Registry where
  data : Nat → Option Nat
  marker : Nat → Bool

/-- The host document as the source observes it.
`parents n` is the chain of strict ancestors of node `n`, nearest first (a
detached or top node has the empty chain); `order` lists the nodes that are in
the document, in document order; `el v` is the root node `$el[0]` of view `v`. -/
structure World where
  parents : Nat → List Nat
  order : List Nat
  reg : Registry
  el : Nat → Nat

/-- jQuery `.data(DATA_ID)` on a set of at most one node: `undefined` for the
empty set and for a node without an entry. -/
def jqData (w : World) (s : Option Nat) : Val :=
  match s with
  | none => .undefined
  | some n =>
    match w.reg.data n with
    | some v => .obj v
    | none => .undefined

/-- jQuery `.closest(MARKER_SELECTOR)` on a set of at most one node: the first
node carrying the marker class among the node itself and its ancestors. -/
def closest (w : World) (s : Option Nat) : Option Nat :=
  match s with
  | none => none
  | some n => (n :: w.parents n).find? w.reg.marker

/-- jQuery `.parent()` for a single node. -/
def parent (w : World) (n : Nat) : Option Nat := (w.parents n).head?

/-- The source's `$.fn.view`:
`value || this.closest(MARKER_SELECTOR).data(DATA_ID) || null`. -/
def view (w : World) (s : Option Nat) : Val :=
  ((jqData w s).or (jqData w (closest w s))).or .null

/-- The source's `$.fn.views`: the loop body pushes `view` unless
`_.indexOf(result, view)` finds it. -/
def viewsLoop (w : World) : List Nat → List Val → List Val
  | [], result => result
  | n :: rest, result =>
    let v := view w (some n)
    if indexOf result v = -1 then viewsLoop w rest (result ++ [v])
    else viewsLoop w rest result

/-- The source's `$.fn.views` applied to a list of nodes. -/
def views (w : World) (nodes : List Nat) : List Val := viewsLoop w nodes []

/-- The source's `parentView`: `this.$el.parent().view()`. -/
def parentView (w : World) (v : Nat) : Val := view w (parent w (w.el v))

/-- The set `$(MARKER_SELECTOR)`: the nodes of the document that carry the
marker class, in document order. -/
def markerNodes (w : World) : List Nat := w.order.filter w.reg.marker

/-- The working set of the resize handler: `$(MARKER_SELECTOR).views()`. -/
def workingSet (w : World) : List Val := views w (markerNodes w)

/-! ## The window-resize handler -/

/-- The errors the source can raise: a JavaScript `TypeError` (a method called
on a value that has none), an exception thrown by an overridable hook, and the
two `Error`s thrown by `_render`. -/
inductive Err where
  | typeError : Err
  | hook : Err
  | attachTemplated : Err
  | singleRoot : Err
  deriving DecidableEq, Repr

/-- An overridable hook such as `doLayout`: called on a view in a world, it
either returns, leaving a possibly changed world, or throws (`none`). -/
abbrev Hook := Nat → World → Option World

/-- Result of the inner loop of the handler. -/
inductive Walk where
  | found (view : Val) (pv : Val) : Walk
  | typeError : Walk
  | outOfFuel : Walk

/-- The inner loop
`while (parentView = view.parentView() && _.indexOf(views, parentView) != -1)
   view = parentView;`
JavaScript parses the condition as
`parentView = (view.parentView() && (_.indexOf(views, parentView) != -1))`,
so the value looked up in `views` is the previous content `pv` of the variable
`parentView`, and the variable receives the value of the whole conjunction.
Calling `parentView()` on anything but a view object is a `TypeError`. -/
def findRoot (w : World) (views : List Val) : Nat → Val → Val → Walk
  | 0, _, _ => .outOfFuel
  | k + 1, view, pv =>
    match view with
    | .obj v =>
      let pv' := (parentView w v).and (.bool (decide (indexOf views pv ≠ -1)))
      if pv'.truthy then findRoot w views k pv' pv' else .found view pv'
    | _ => .typeError

/-- Result of one iteration of the outer loop: the next state together with
the view whose `doLayout` returned, or an exception (`called` is the view whose
`doLayout` threw, if the exception came from there). -/
inductive Iter where
  | next (w : World) (views : List Val) (pv : Val) (v : Nat) : Iter
  | threw (e : Err) (called : Option Nat) : Iter
  | outOfFuel : Iter

/-- One iteration of `while (views.length)`: take `views[0]`, run the inner
loop, call `view.doLayout()`, then `views.splice(_.indexOf(views, view), 1)`.
Nothing catches an exception. -/
def resizeIter (doLayout : Hook) (wf : Nat) (w : World) (views : List Val) (pv : Val) : Iter :=
  match findRoot w views wf (views.headD .undefined) pv with
  | .outOfFuel => .outOfFuel
  | .typeError => .threw .typeError none
  | .found view pv' =>
    match view with
    | .obj v =>
      match doLayout v w with
      | none => .threw .hook (some v)
      | some w' => .next w' (splice views (indexOf views view)) pv' v
    | _ => .threw .typeError none

/-- How a resize pass ended. -/
inductive Outcome where
  | finished : Outcome
  | threw (e : Err) : Outcome
  | outOfFuel : Outcome
  deriving DecidableEq, Repr

/-- State at the end of a resize pass: the world, what is left of the working
set, the views on which the handler called `doLayout` (in call order), and how
the pass ended. -/
structure Pass where
  world : World
  views : List Val
  log : List Nat
  outcome : Outcome

/-- The outer loop `while (views.length) ...`. The variable `parentView` is
declared with `var` and no initialiser, so its value `pv` survives from one
iteration to the next. -/
def resizeLoop (doLayout : Hook) (wf : Nat) : Nat → World → List Val → Val → List Nat → Pass
  | 0, w, views, _, log =>
    ⟨w, views, log, if views.length = 0 then .finished else .outOfFuel⟩
  | fuel + 1, w, views, pv, log =>
    if views.length = 0 then ⟨w, views, log, .finished⟩
    else
      match resizeIter doLayout wf w views pv with
      | .next w' views' pv' v => resizeLoop doLayout wf fuel w' views' pv' (log ++ [v])
      | .threw e called => ⟨w, views, log ++ called.toList, .threw e⟩
      | .outOfFuel => ⟨w, views, log, .outOfFuel⟩

/-- The handler registered with `$(window).resize`: build the working set and
run the loop; `parentView` starts as `undefined`. -/
def resize (doLayout : Hook) (fuel : Nat) (w : World) : Pass :=
  resizeLoop doLayout fuel fuel w (workingSet w) .undefined []

/-! ## Sample documents -/

/-- A registry in which node `n` is registered to view `n` and marker-classed
exactly when `n < k`. -/
def regUpTo (k : Nat) : Registry :=
  ⟨fun n => if n < k then some n else none, fun n => decide (n < k)⟩

/-- Three nested view roots: node 0 contains node 1, which contains node 2;
view `i` owns node `i`. -/
def nested3 : World :=
  ⟨fun n => match n with | 1 => [0] | 2 => [1, 0] | _ => [], [0, 1, 2], regUpTo 3, id⟩

/-- Two nested view roots: node 0 (`.root`) contains node 1 (`.inner`). -/
def nested2 : World :=
  ⟨fun n => match n with | 1 => [0] | _ => [], [0, 1], regUpTo 2, id⟩

/-- Two sibling view roots 0 and 1 under an unregistered node 5. -/
def flat2 : World :=
  ⟨fun n => match n with | 0 => [5] | 1 => [5] | _ => [], [5, 0, 1], regUpTo 2, id⟩

/-- The default hook `$.noop`. -/
def noop : Hook := fun _ w => some w

/-- A `doLayout` that throws on view 0 and is `$.noop` elsewhere. -/
def throwsOn0 : Hook := fun v w => if v = 0 then none else some w

/-! ## Construction -/

/-- The whitespace class `\s` of a JavaScript regular expression. -/
def jsSpace (c : Char) : Bool :=
  c.toNat ∈ [9, 10, 11, 12, 13, 32, 160, 0x1680, 0x2028, 0x2029, 0x202f, 0x205f, 0x3000, 0xfeff]
    || (0x2000 ≤ c.toNat && c.toNat ≤ 0x200a)

/-- The test `/^\s*</.test(template)`. -/
def startsWithTag (markup : List Char) : Bool :=
  match markup.dropWhile jsSpace with
  | '<' :: _ => true
  | _ => false

/-- The member `template` of a view: a string, or a function that returns the
given markup when `_render` calls it with the template data. -/
inductive Template where
  | str (markup : List Char) : Template
  | fn (markup : List Char) : Template

/-- The markup a template renders to. -/
def Template.markup : Template → List Char
  | .str m => m
  | .fn m => m

/-- The member `el` when it is set: an existing node, or a selector that
matches no node of the document (Backbone then leaves `$el` empty). -/
inductive ElSpec where
  | node (n : Nat) : ElSpec
  | noMatch : ElSpec
  deriving DecidableEq, Repr

/-- The members the constructor and `_render` read, as they stand after
`_.extend(this, _.pick(options, viewOptions))`; `className`, `model` and
`modelBinding` record whether the member is truthy. -/
structure Options where
  el : Option ElSpec
  template : Option Template
  className : Bool
  appendTo : Option Nat
  prependTo : Option Nat
  replaceEl : Option Nat
  model : Bool
  modelBinding : Bool

/-- Behaviour of the collaborators during one construction: `parse markup` is
the list of top-level nodes of the jQuery set `$(markup)` (comment and text
nodes included), `fresh` the node Backbone's `_ensureElement` creates when no
`el` is given, `acceptsData n` tells whether jQuery `.data(key, value)` stores
anything on node `n` (it does not on comment and text nodes), `isElement n`
whether `n` is an element, the only kind of node `.addClass` changes, and the
four flags tell whether the user hook returns normally (`true`) or throws. -/
structure Env where
  parse : List Char → List Nat
  fresh : Nat
  acceptsData : Nat → Bool
  isElement : Nat → Bool
  initOk : Bool
  onRenderOk : Bool
  createChildrenOk : Bool
  doLayoutOk : Bool

/-- The observable steps of a construction, in the order they happen. A step
on `$el` carries the jQuery set it is called on (`none` for the empty set). -/
inductive Event where
  | initCall (v : Nat) : Event
  | templateCall (v : Nat) : Event
  | parseMarkup (v : Nat) : Event
  | ensureElement (v : Nat) : Event
  | dataSet (root : Option Nat) (v : Nat) : Event
  | addMarker (root : Option Nat) : Event
  | appendTo (root : Option Nat) (target : Nat) : Event
  | prependTo (root : Option Nat) (target : Nat) : Event
  | replaceAll (root : Option Nat) (target : Nat) : Event
  | modelOn (v : Nat) : Event
  | bindModel (v : Nat) : Event
  | onRender (v : Nat) : Event
  | delegateEvents (v : Nat) : Event
  | addClassName (root : Option Nat) : Event
  | createChildren (v : Nat) : Event
  | doLayout (v : Nat) : Event
  deriving DecidableEq, Repr

/-- The steps the lifecycle contract speaks about: the two calls that write to
the registry and the three overridable hooks of the view. -/
def Event.isLifecycle : Event → Bool
  | .dataSet _ _ => true
  | .addMarker _ => true
  | .onRender _ => true
  | .createChildren _ => true
  | .doLayout _ => true
  | _ => false

/-- Whether a step is one of the two calls that write to the registry. -/
def Event.isRegistryWrite : Event → Bool
  | .dataSet _ _ => true
  | .addMarker _ => true
  | _ => false

/-- State threaded through a construction: the registry and the steps so far. -/
structure CState where
  reg : Registry
  trace : List Event

/-- Result of a construction step: the jQuery set `$el` (the root node, or
`none` when the set is empty), or the error thrown. -/
inductive Res where
  | ok (root : Option Nat) : Res
  | error (e : Err) : Res
  deriving DecidableEq, Repr

/-- The lines `this.$el.data(DATA_ID, this); this.$el.addClass(MARKER_CLASS);`
of `_render`, for the jQuery set `root` and view `v`. On the empty set both
calls do nothing; on a node the entry is stored only if the node accepts data
and the class is added only if the node is an element. -/
def attach (env : Env) (r : Registry) (root : Option Nat) (v : Nat) : Registry :=
  match root with
  | none => r
  | some n =>
    ⟨if env.acceptsData n then Function.update r.data n (some v) else r.data,
      if env.isElement n then Function.update r.marker n true else r.marker⟩

/-- The world in which `_render` has resolved root node `n` for view `v`, the
registry entry of `v` has been stored on `n` and the marker class added to it. -/
def attachView (w : World) (n v : Nat) : World :=
  { w with
    reg := ⟨Function.update w.reg.data n (some v), Function.update w.reg.marker n true⟩,
    el := Function.update w.el v n }

/-- Backbone's `_ensureElement`: a fresh element when `el` is not set, the
given node, or the empty set for a selector without a match. -/
def ensureElement (env : Env) (el : Option ElSpec) : Option Nat :=
  match el with
  | none => some env.fresh
  | some (.node n) => some n
  | some .noMatch => none

/-- First part of `_render`: resolve the root node, from the template when one
is set, through `_ensureElement` otherwise. -/
def resolveRoot (env : Env) (o : Options) (v : Nat) (st : CState) : CState × Res :=
  match o.template with
  | some t =>
    if o.el.isSome then (st, .error .attachTemplated)
    else
      let tr1 : List Event :=
        match t with
        | .fn _ => st.trace ++ [.templateCall v]
        | .str _ => st.trace
      if startsWithTag t.markup then
        match env.parse t.markup with
        | [n] => (⟨st.reg, tr1 ++ [.parseMarkup v]⟩, .ok (some n))
        | _ => (⟨st.reg, tr1 ++ [.parseMarkup v]⟩, .error .singleRoot)
      else (⟨st.reg, tr1⟩, .error .singleRoot)
  | none => (⟨st.reg, st.trace ++ [.ensureElement v]⟩, .ok (ensureElement env o.el))

/-- The placement step of `_render`: the first of `appendTo`, `prependTo`,
`replaceEl` that is set. -/
def placement (o : Options) (root : Option Nat) : List Event :=
  match o.appendTo, o.prependTo, o.replaceEl with
  | some t, _, _ => [.appendTo root t]
  | none, some t, _ => [.prependTo root t]
  | none, none, some t => [.replaceAll root t]
  | none, none, none => []

/-- The model wiring of `_render`. -/
def connectModel (o : Options) (v : Nat) : List Event :=
  if o.model then
    (if o.modelBinding then [.modelOn v, .bindModel v] else [.modelOn v])
  else []

/-- The source's `_render`. -/
def _render (env : Env) (o : Options) (v : Nat) (st : CState) : CState × Res :=
  match resolveRoot env o v st with
  | (st1, .error e) => (st1, .error e)
  | (st1, .ok root) =>
    let st2 : CState :=
      ⟨attach env st1.reg root v,
        st1.trace ++ [.dataSet root v, .addMarker root] ++ placement o root ++ connectModel o v
          ++ [.onRender v]⟩
    if env.onRenderOk then (st2, .ok root) else (st2, .error .hook)

/-- The source's `constructor`, for a new view `v` built on registry `reg`. -/
def construct (env : Env) (o : Options) (v : Nat) (reg : Registry) : CState × Res :=
  let st0 : CState := ⟨reg, [.initCall v]⟩
  if env.initOk then
    match _render env o v st0 with
    | (st1, .error e) => (st1, .error e)
    | (st1, .ok root) =>
      let tr : List Event :=
        st1.trace ++ [.delegateEvents v] ++ (if o.className then [.addClassName root] else [])
          ++ [.createChildren v]
      if env.createChildrenOk then
        (if env.doLayoutOk then (⟨st1.reg, tr ++ [.doLayout v]⟩, .ok root)
         else (⟨st1.reg, tr ++ [.doLayout v]⟩, .error .hook))
      else (⟨st1.reg, tr⟩, .error .hook)
  else (st0, .error .hook)

/-- The empty registry. -/
def emptyReg : Registry := ⟨fun _ => none, fun _ => false⟩

/-- The markup `<a></a>`: one element. -/
def markupOne : List Char := ['<', 'a', '>', '<', '/', 'a', '>']

/-- The markup `<a></a><b></b>`: two elements side by side. -/
def markupTwo : List Char :=
  ['<', 'a', '>', '<', '/', 'a', '>', '<', 'b', '>', '<', '/', 'b', '>']

/-- The markup `<!--c-->`: a single comment node and no element. -/
def markupComment : List Char := ['<', '!', '-', '-', 'c', '-', '-', '>']

/-- Collaborators whose hooks all return. The parser is a table of what jQuery
builds from three markups: element 4 for `markupOne`, elements 4 and 5 for
`markupTwo`, comment node 6 for `markupComment`; node 6 neither accepts data
nor is an element. -/
def calmEnv : Env :=
  ⟨fun m =>
      if m = markupOne then [4] else if m = markupTwo then [4, 5]
      else if m = markupComment then [6] else [],
    9, fun n => decide (n ≠ 6), fun n => decide (n ≠ 6), true, true, true, true⟩

/-- Options with nothing set. -/
def noOptions : Options := ⟨none, none, false, none, none, none, false, false⟩

/-- Options with a string template of two top-level nodes. -/
def twoRootOptions : Options := { noOptions with template := some (.str markupTwo) }

/-- Options with a string template of one top-level node. -/
def oneRootOptions : Options := { noOptions with template := some (.str markupOne) }

/-- Options with both an existing node `el` and a one-root template. -/
def elAndTemplate : Options := { oneRootOptions with el := some (.node 3) }

/-- Options with the string template `<!--c-->`. -/
def commentOptions : Options := { noOptions with template := some (.str markupComment) }

/-- Options whose `el` is a selector that matches no node. -/
def noMatchOptions : Options := { noOptions with el := some .noMatch }

/-- Three nested nodes (0 contains 1, which contains 2) with an empty registry. -/
def plain3 : World :=
  ⟨fun n => match n with | 1 => [0] | 2 => [1, 0] | _ => [], [0, 1, 2], emptyReg, id⟩

/-- A document in which node 1, between node 2 and the root node 0, carries the
marker class but no registry entry. -/
def strayMarker : World :=
  ⟨fun n => match n with | 1 => [0] | 2 => [1, 0] | _ => [], [0, 1, 2],
    ⟨fun _ => none, fun n => decide (n = 1)⟩, id⟩

/-! ## Facts about the JavaScript helpers -/

theorem indexOf_head (x : Val) (l : List Val) : indexOf (x :: l) x = 0 := by
  simp [indexOf]

theorem splice_zero (x : Val) (l : List Val) : splice (x :: l) 0 = l := by
  simp [splice]

theorem indexOf_eq_neg_one {l : List Val} {x : Val} (h : x ∉ l) : indexOf l x = -1 := by
  simp [indexOf, h]

theorem indexOf_ne_neg_one {l : List Val} {x : Val} (h : x ∈ l) : indexOf l x ≠ -1 := by
  simp only [indexOf, h, if_true]
  omega

theorem not_mem_map_obj {pv : Val} (h : pv.isObj = false) (vs : List Nat) :
    pv ∉ vs.map Val.obj := by
  intro hm
  obtain ⟨v, _, rfl⟩ := List.mem_map.1 hm
  simp [Val.isObj] at h

/-- A jQuery data lookup yields `undefined` or the stored view. -/
theorem jqData_cases (w : World) (s : Option Nat) :
    jqData w s = .undefined ∨ ∃ v, jqData w s = .obj v := by
  cases s with
  | none => left; rfl
  | some n =>
    cases h : w.reg.data n with
    | none => left; simp [jqData, h]
    | some v => right; exact ⟨v, by simp [jqData, h]⟩

/-- The value of `$.fn.view` is a view object or `null`, never `undefined`. -/
theorem view_null_or_obj (w : World) (s : Option Nat) :
    view w s = .null ∨ ∃ v, view w s = .obj v := by
  unfold view
  rcases jqData_cases w s with h1 | ⟨v, h1⟩
  · rcases jqData_cases w (closest w s) with h2 | ⟨u, h2⟩
    · left; simp [h1, h2, Val.or, Val.truthy]
    · right; exact ⟨u, by simp [h1, h2, Val.or, Val.truthy]⟩
  · right; exact ⟨v, by simp [h1, Val.or, Val.truthy]⟩

/-- The conjunction assigned to `parentView` is `null` or a boolean. -/
theorem and_bool_not_obj (w : World) (v : Nat) (b : Bool) :
    ((parentView w v).and (.bool b)).isObj = false := by
  unfold parentView
  rcases view_null_or_obj w (parent w (w.el v)) with h | ⟨u, h⟩ <;>
    simp [h, Val.and, Val.truthy, Val.isObj]

/-! ## The inner loop never climbs -/

/-- With two units of fuel the inner loop ends: it either keeps the view it
started from or raises a `TypeError`. -/
theorem findRoot_cases (w : World) (views : List Val) (k : Nat) (view pv : Val) :
    findRoot w views (k + 2) view pv = .typeError ∨
      ∃ pv', findRoot w views (k + 2) view pv = .found view pv' := by
  cases view with
  | obj v =>
    simp only [findRoot]
    rcases view_null_or_obj w (parent w (w.el v)) with h | ⟨u, h⟩
    · right
      exact ⟨.null, by simp [parentView, h, Val.and, Val.truthy]⟩
    · by_cases hx : indexOf views pv ≠ -1
      · left
        simp [parentView, h, Val.and, Val.truthy, hx, findRoot]
      · right
        exact ⟨.bool false, by simp [parentView, h, Val.and, Val.truthy, hx]⟩
  | undefined => left; simp [findRoot]
  | null => left; simp [findRoot]
  | bool b => left; simp [findRoot]

/-- On a working set of view objects, with `parentView` holding no view object,
the inner loop keeps the view it started from. -/
theorem findRoot_objs (w : World) (vs : List Nat) (k v : Nat) (pv : Val)
    (hpv : pv.isObj = false) :
    ∃ pv', findRoot w (vs.map Val.obj) (k + 1) (.obj v) pv = .found (.obj v) pv' ∧
      pv'.isObj = false := by
  have hx : indexOf (vs.map Val.obj) pv = -1 := indexOf_eq_neg_one (not_mem_map_obj hpv vs)
  refine ⟨(parentView w v).and (.bool false), ?_, and_bool_not_obj w v false⟩
  simp only [findRoot, hx]
  have ht : ((parentView w v).and (.bool false)).truthy = false := by
    unfold parentView
    rcases view_null_or_obj w (parent w (w.el v)) with h | ⟨u, h⟩ <;>
      simp [h, Val.and, Val.truthy]
  simp [ht]

/-! ## One iteration of the outer loop -/

/-- On a working set of view objects whose first view lays out normally, one
iteration calls `doLayout` on the first view and drops it. -/
theorem resizeIter_objs (doLayout : Hook) (k : Nat) (w w' : World) (v : Nat) (vs : List Nat)
    (pv : Val) (hpv : pv.isObj = false) (hok : doLayout v w = some w') :
    ∃ pv', resizeIter doLayout (k + 1) w ((v :: vs).map Val.obj) pv
        = .next w' (vs.map Val.obj) pv' v ∧ pv'.isObj = false := by
  obtain ⟨pv', hf, hpv'⟩ := findRoot_objs w (v :: vs) k v pv hpv
  refine ⟨pv', ?_, hpv'⟩
  have hf' : findRoot w (Val.obj v :: vs.map Val.obj) (k + 1) (.obj v) pv
      = .found (.obj v) pv' := by simpa using hf
  simp [resizeIter, hf', hok, indexOf_head, splice_zero]

/-- On a working set of view objects whose first view throws in `doLayout`,
the iteration ends with that exception. -/
theorem resizeIter_throw (doLayout : Hook) (k : Nat) (w : World) (v : Nat) (vs : List Nat)
    (pv : Val) (hpv : pv.isObj = false) (hthrow : doLayout v w = none) :
    resizeIter doLayout (k + 1) w ((v :: vs).map Val.obj) pv = .threw .hook (some v) := by
  obtain ⟨pv', hf, _⟩ := findRoot_objs w (v :: vs) k v pv hpv
  have hf' : findRoot w (Val.obj v :: vs.map Val.obj) (k + 1) (.obj v) pv
      = .found (.obj v) pv' := by simpa using hf
  simp [resizeIter, hf', hthrow]

/-- Whatever the state, an iteration that completes has called `doLayout` on
`views[0]` and removed exactly that entry. -/
theorem resizeIter_next (doLayout : Hook) (k : Nat) (w w' : World) (views views' : List Val)
    (pv pv' : Val) (v : Nat)
    (h : resizeIter doLayout (k + 2) w views pv = .next w' views' pv' v) :
    ∃ rest, views = Val.obj v :: rest ∧ views' = rest := by
  unfold resizeIter at h
  rcases findRoot_cases w views k (views.headD .undefined) pv with hf | ⟨q, hf⟩
  · rw [hf] at h
    simp at h
  · rw [hf] at h
    cases hh : views.headD .undefined with
    | obj u =>
      rw [hh] at h
      simp only at h
      cases hd : doLayout u w with
      | none => rw [hd] at h; simp at h
      | some w2 =>
        rw [hd] at h
        simp only [Iter.next.injEq] at h
        obtain ⟨_, hv, _, huv⟩ := h
        cases views with
        | nil => simp at hh
        | cons x rest =>
          simp only [List.headD_cons] at hh
          subst hh
          subst huv
          refine ⟨rest, rfl, ?_⟩
          rw [← hv, indexOf_head, splice_zero]
    | undefined => rw [hh] at h; simp at h
    | null => rw [hh] at h; simp at h
    | bool b => rw [hh] at h; simp at h

/-- With two units of fuel for the inner loop an iteration never runs out. -/
theorem resizeIter_fuel (doLayout : Hook) (k : Nat) (w : World) (views : List Val) (pv : Val) :
    resizeIter doLayout (k + 2) w views pv ≠ .outOfFuel := by
  unfold resizeIter
  rcases findRoot_cases w views k (views.headD .undefined) pv with hf | ⟨q, hf⟩
  · rw [hf]; simp
  · rw [hf]
    cases views.headD .undefined with
    | obj u => cases hd : doLayout u w <;> simp [hd]
    | undefined => simp
    | null => simp
    | bool b => simp

/-! ## The whole pass -/

/-- The outer loop returns whenever the fuel covers the length of the working
set. -/
theorem resizeLoop_fuel (doLayout : Hook) (k : Nat) :
    ∀ (fuel : Nat) (w : World) (views : List Val) (pv : Val) (log : List Nat),
      views.length ≤ fuel →
      (resizeLoop doLayout (k + 2) fuel w views pv log).outcome ≠ .outOfFuel := by
  intro fuel
  induction fuel with
  | zero =>
    intro w views pv log hlen
    have : views.length = 0 := by omega
    simp [resizeLoop, this]
  | succ fuel ih =>
    intro w views pv log hlen
    unfold resizeLoop
    by_cases h0 : views.length = 0
    · simp [h0]
    · simp only [h0, if_false]
      cases hit : resizeIter doLayout (k + 2) w views pv with
      | next w' views' pv' v =>
        obtain ⟨rest, hv, hv'⟩ := resizeIter_next doLayout k w w' views views' pv pv' v hit
        simp only
        apply ih
        subst hv hv'
        simp at hlen
        omega
      | threw e called => simp
      | outOfFuel => exact absurd hit (resizeIter_fuel doLayout k w views pv)

/-- On a working set of view objects none of whose `doLayout` throws, the pass
calls `doLayout` on every view, in the order of the working set, and ends
normally with the working set drained. -/
theorem resizeLoop_objs (doLayout : Hook) (k : Nat) :
    ∀ (vs : List Nat) (fuel : Nat) (w : World) (pv : Val) (log : List Nat),
      (∀ v ∈ vs, ∀ w0, doLayout v w0 ≠ none) → pv.isObj = false → vs.length ≤ fuel →
      (resizeLoop doLayout (k + 1) fuel w (vs.map Val.obj) pv log).log = log ++ vs ∧
      (resizeLoop doLayout (k + 1) fuel w (vs.map Val.obj) pv log).outcome = .finished ∧
      (resizeLoop doLayout (k + 1) fuel w (vs.map Val.obj) pv log).views = [] := by
  intro vs
  induction vs with
  | nil =>
    intro fuel w pv log _ _ _
    cases fuel <;> simp [resizeLoop]
  | cons v vs ih =>
    intro fuel w pv log hok hpv hlen
    cases fuel with
    | zero => simp at hlen
    | succ fuel =>
      have hv : doLayout v w ≠ none := hok v (List.mem_cons_self v vs) w
      obtain ⟨w', hw'⟩ := Option.ne_none_iff_exists'.1 hv
      obtain ⟨pv', hit, hpv'⟩ := resizeIter_objs doLayout k w w' v vs pv hpv hw'
      have hrec := ih fuel w' pv' (log ++ [v])
        (fun u hu => hok u (List.mem_cons_of_mem v hu)) hpv' (by simpa using hlen)
      unfold resizeLoop
      simp only [List.length_map, List.length_cons, Nat.add_one_ne_zero, if_false, hit]
      simpa using hrec

/-- On a working set of view objects whose first view throws in `doLayout`,
the pass ends with that exception after this single call. -/
theorem resizeLoop_throw (doLayout : Hook) (k fuel : Nat) (w : World) (v : Nat) (vs : List Nat)
    (pv : Val) (log : List Nat) (hpv : pv.isObj = false) (hthrow : doLayout v w = none) :
    (resizeLoop doLayout (k + 1) (fuel + 1) w ((v :: vs).map Val.obj) pv log).log = log ++ [v] ∧
    (resizeLoop doLayout (k + 1) (fuel + 1) w ((v :: vs).map Val.obj) pv log).outcome
      = .threw .hook := by
  have hit := resizeIter_throw doLayout k w v vs pv hpv hthrow
  unfold resizeLoop
  simp only [List.length_map, List.length_cons, Nat.add_one_ne_zero, if_false, hit]
  simp

/-! ## The deduplicating loop of `$.fn.views` -/

theorem indexOf_eq_neg_one_iff (l : List Val) (x : Val) : indexOf l x = -1 ↔ x ∉ l := by
  constructor
  · intro h hx
    exact indexOf_ne_neg_one hx h
  · exact indexOf_eq_neg_one

theorem viewsLoop_nodup (w : World) :
    ∀ (nodes : List Nat) (acc : List Val), acc.Nodup → (viewsLoop w nodes acc).Nodup := by
  intro nodes
  induction nodes with
  | nil => intro acc h; simpa [viewsLoop] using h
  | cons n rest ih =>
    intro acc h
    simp only [viewsLoop]
    split
    · next hidx =>
      apply ih
      have hn : view w (some n) ∉ acc := (indexOf_eq_neg_one_iff _ _).1 hidx
      exact List.Nodup.append h (List.nodup_singleton _) (by simpa using hn)
    · exact ih acc h

theorem viewsLoop_mem (w : World) :
    ∀ (nodes : List Nat) (acc : List Val) (x : Val),
      x ∈ viewsLoop w nodes acc ↔ x ∈ acc ∨ x ∈ nodes.map (fun n => view w (some n)) := by
  intro nodes
  induction nodes with
  | nil => intro acc x; simp [viewsLoop]
  | cons n rest ih =>
    intro acc x
    simp only [viewsLoop]
    split
    · rw [ih]
      simp only [List.mem_append, List.mem_singleton, List.map_cons, List.mem_cons]
      tauto
    · next hidx =>
      have hn : view w (some n) ∈ acc := by
        by_contra hc
        exact hidx (indexOf_eq_neg_one hc)
      rw [ih]
      simp only [List.map_cons, List.mem_cons]
      constructor
      · rintro (h | h)
        · exact Or.inl h
        · exact Or.inr (Or.inr h)
      · rintro (h | h | h)
        · exact Or.inl h
        · exact Or.inl (h ▸ hn)
        · exact Or.inr h

theorem viewsLoop_order (w : World) :
    ∀ (nodes : List Nat) (acc seen : List Val),
      (∀ x, x ∈ acc ↔ x ∈ seen) →
      acc.Pairwise (fun x y =>
        (seen ++ nodes.map (fun n => view w (some n))).indexOf x
          < (seen ++ nodes.map (fun n => view w (some n))).indexOf y) →
      (viewsLoop w nodes acc).Pairwise (fun x y =>
        (seen ++ nodes.map (fun n => view w (some n))).indexOf x
          < (seen ++ nodes.map (fun n => view w (some n))).indexOf y) := by
  intro nodes
  induction nodes with
  | nil => intro acc seen _ h; simpa [viewsLoop] using h
  | cons n rest ih =>
    intro acc seen hmem hpw
    have hL : seen ++ (n :: rest).map (fun n => view w (some n))
        = (seen ++ [view w (some n)]) ++ rest.map (fun n => view w (some n)) := by simp
    rw [hL] at hpw ⊢
    simp only [viewsLoop]
    split
    · next hidx =>
      have hn : view w (some n) ∉ acc := (indexOf_eq_neg_one_iff _ _).1 hidx
      have hns : view w (some n) ∉ seen := fun h => hn ((hmem _).2 h)
      apply ih (acc ++ [view w (some n)]) (seen ++ [view w (some n)])
      · intro x; simp [hmem x]
      · rw [List.pairwise_append]
        refine ⟨hpw, List.pairwise_singleton _ _, ?_⟩
        intro x hx y hy
        rw [List.mem_singleton] at hy
        subst hy
        have hxs : x ∈ seen := (hmem x).1 hx
        have h1 : ((seen ++ [view w (some n)]) ++ rest.map (fun n => view w (some n))).indexOf x
            = seen.indexOf x := by
          rw [List.append_assoc, List.indexOf_append_of_mem hxs]
        have h2 : ((seen ++ [view w (some n)]) ++ rest.map (fun n => view w (some n))).indexOf
            (view w (some n)) = seen.length := by
          rw [List.append_assoc, List.indexOf_append_of_not_mem hns]
          simp
        rw [h1, h2]
        exact List.indexOf_lt_length.2 hxs
    · next hidx =>
      have hn : view w (some n) ∈ acc := by
        by_contra hc
        exact hidx (indexOf_eq_neg_one hc)
      apply ih acc (seen ++ [view w (some n)])
      · intro x
        simp only [List.mem_append, List.mem_singleton]
        constructor
        · intro h; exact Or.inl ((hmem x).1 h)
        · rintro (h | h)
          · exact (hmem x).2 h
          · exact h ▸ hn
      · exact hpw

theorem workingSet_nodup (w : World) : (workingSet w).Nodup :=
  viewsLoop_nodup w _ [] List.nodup_nil

/-- On a working set of view objects none of whose `doLayout` throws, the
handler lays out every view of the working set, in its order. -/
theorem resize_objs (doLayout : Hook) (fuel : Nat) (w : World) (vs : List Nat)
    (hws : workingSet w = vs.map Val.obj) (hok : ∀ v ∈ vs, ∀ w0, doLayout v w0 ≠ none)
    (hfuel : vs.length + 2 ≤ fuel) :
    (resize doLayout fuel w).log = vs ∧ (resize doLayout fuel w).outcome = .finished := by
  obtain ⟨k, rfl⟩ : ∃ k, fuel = k + 1 := ⟨fuel - 1, by omega⟩
  have h := resizeLoop_objs doLayout k vs (k + 1) w .undefined [] hok rfl (by omega)
  unfold resize
  rw [hws]
  exact ⟨by simpa using h.1, h.2.1⟩

theorem nodup_of_workingSet (w : World) (vs : List Nat)
    (hws : workingSet w = vs.map Val.obj) : vs.Nodup :=
  List.Nodup.of_map Val.obj (hws ▸ workingSet_nodup w)

/-! ## Resize pass: the claims -/

/-- C1 (as amended): in a document where the root of view A contains the root of
view B, which contains the root of view C, with working set a rearrangement of
A, B, C and no `doLayout` throwing, one run of the resize handler calls
`doLayout` exactly once on each of A, B and C, three calls in all; with two
levels (A containing B) it calls `doLayout` once on A and once on B. -/
theorem resize_nested_each_once (doLayout : Hook) (fuel : Nat) (w : World) :
    (∀ (A B C : Nat) (ws : List Nat),
      w.el A ∈ w.parents (w.el B) → w.el B ∈ w.parents (w.el C) →
      ws.Perm [A, B, C] → workingSet w = ws.map Val.obj →
      (∀ v ∈ ws, ∀ w0, doLayout v w0 ≠ none) → 5 ≤ fuel →
      (resize doLayout fuel w).log.count A = 1 ∧ (resize doLayout fuel w).log.count B = 1 ∧
      (resize doLayout fuel w).log.count C = 1 ∧ (resize doLayout fuel w).log.length = 3) ∧
    (∀ (A B : Nat) (ws : List Nat),
      w.el A ∈ w.parents (w.el B) →
      ws.Perm [A, B] → workingSet w = ws.map Val.obj →
      (∀ v ∈ ws, ∀ w0, doLayout v w0 ≠ none) → 4 ≤ fuel →
      (resize doLayout fuel w).log.count A = 1 ∧ (resize doLayout fuel w).log.count B = 1 ∧
      (resize doLayout fuel w).log.length = 2) := by
  constructor
  · intro A B C ws _ _ hperm hws hok hfuel
    have hlen : ws.length = 3 := by simpa using hperm.length_eq
    have hlog := (resize_objs doLayout fuel w ws hws hok (by omega)).1
    have hnd : ws.Nodup := nodup_of_workingSet w ws hws
    rw [hlog]
    refine ⟨?_, ?_, ?_, hlen⟩
    · exact List.count_eq_one_of_mem hnd (hperm.mem_iff.2 (by simp))
    · exact List.count_eq_one_of_mem hnd (hperm.mem_iff.2 (by simp))
    · exact List.count_eq_one_of_mem hnd (hperm.mem_iff.2 (by simp))
  · intro A B ws _ hperm hws hok hfuel
    have hlen : ws.length = 2 := by simpa using hperm.length_eq
    have hlog := (resize_objs doLayout fuel w ws hws hok (by omega)).1
    have hnd : ws.Nodup := nodup_of_workingSet w ws hws
    rw [hlog]
    refine ⟨?_, ?_, hlen⟩
    · exact List.count_eq_one_of_mem hnd (hperm.mem_iff.2 (by simp))
    · exact List.count_eq_one_of_mem hnd (hperm.mem_iff.2 (by simp))

/-- C1, witness: the three-level document `nested3` with `$.noop` hooks. -/
theorem resize_nested_each_once_witness :
    (resize noop 5 nested3).log.count 0 = 1 ∧ (resize noop 5 nested3).log.count 1 = 1 ∧
    (resize noop 5 nested3).log.count 2 = 1 ∧ (resize noop 5 nested3).log.length = 3 :=
  (resize_nested_each_once noop 5 nested3).1 0 1 2 [0, 1, 2] (by decide) (by decide)
    (List.Perm.refl _) (by decide) (fun _ _ _ => by simp [noop]) (by decide)

/-- C1, counterexample: in `nested3` (A = 0 contains B = 1 contains C = 2, all
registered and marker-classed, working set [A, B, C]) and in the two-level
`nested2`, one run of the handler with hooks that do nothing calls `doLayout`
on B (and on C) as well, not on A alone. -/
theorem resize_nested_calls_inner :
    nested3.el 0 ∈ nested3.parents (nested3.el 1) ∧
    nested3.el 1 ∈ nested3.parents (nested3.el 2) ∧
    workingSet nested3 = [.obj 0, .obj 1, .obj 2] ∧
    (resize noop 5 nested3).log = [0, 1, 2] ∧
    (resize noop 5 nested3).log ≠ [0] ∧
    nested2.el 0 ∈ nested2.parents (nested2.el 1) ∧
    workingSet nested2 = [.obj 0, .obj 1] ∧
    (resize noop 5 nested2).log = [0, 1] ∧
    1 ∈ (resize noop 5 nested2).log := by
  decide

/-- C2 (as amended): when the working set starts with view D, followed by
further views such as E, and `D.doLayout` throws, the handler ends at once with
that exception: `doLayout` has been called on D only, and on no later view of
the working set. -/
theorem resize_throw_aborts (doLayout : Hook) (fuel : Nat) (w : World) (D E : Nat)
    (rest : List Nat) (hws : workingSet w = (D :: rest).map Val.obj) (hE : E ∈ rest)
    (hthrow : doLayout D w = none) (hfuel : (workingSet w).length + 2 ≤ fuel) :
    (resize doLayout fuel w).outcome = .threw .hook ∧
    (resize doLayout fuel w).log = [D] ∧ E ∉ (resize doLayout fuel w).log := by
  obtain ⟨k, rfl⟩ : ∃ k, fuel = k + 1 := ⟨fuel - 1, by omega⟩
  have h := resizeLoop_throw doLayout k k w D rest .undefined [] rfl hthrow
  have hnd : (D :: rest).Nodup := nodup_of_workingSet w (D :: rest) hws
  have hne : E ≠ D := by
    rintro rfl
    exact (List.nodup_cons.1 hnd).1 hE
  unfold resize
  rw [hws]
  refine ⟨h.2, by simpa using h.1, ?_⟩
  rw [h.1]
  simpa using hne

/-- C2, witness: the siblings of `flat2`, where `doLayout` of view 0 throws. -/
theorem resize_throw_aborts_witness :
    (resize throwsOn0 5 flat2).outcome = .threw .hook ∧
    (resize throwsOn0 5 flat2).log = [0] ∧ 1 ∉ (resize throwsOn0 5 flat2).log :=
  resize_throw_aborts throwsOn0 5 flat2 0 1 [1] (by decide) (by decide) rfl (by decide)

/-- C2, counterexample: D = 0 and E = 1 are independent views of `flat2`
(neither root is an ancestor of the other), D is discovered first and its
`doLayout` throws; the pass ends with the exception and `E.doLayout` is never
called. -/
theorem resize_throw_skips_sibling :
    workingSet flat2 = [.obj 0, .obj 1] ∧
    flat2.el 0 ∉ flat2.parents (flat2.el 1) ∧ flat2.el 1 ∉ flat2.parents (flat2.el 0) ∧
    throwsOn0 0 flat2 = none ∧
    (resize throwsOn0 5 flat2).outcome = .threw .hook ∧
    1 ∉ (resize throwsOn0 5 flat2).log := by
  refine ⟨by decide, by decide, by decide, rfl, by decide, by decide⟩

/-- C3 (as amended): for a working set of registered views none of which is
an ancestor of another, and in which no `doLayout` throws, one run of the
resize handler calls `doLayout` exactly once on each view of the working set,
in the order in which the marker-class query discovered them, and ends
normally. -/
theorem resize_independent_in_order (doLayout : Hook) (fuel : Nat) (w : World) (vs : List Nat)
    (hws : workingSet w = vs.map Val.obj)
    (_hind : ∀ a ∈ vs, ∀ b ∈ vs, a ≠ b → w.el a ∉ w.parents (w.el b))
    (hok : ∀ v ∈ vs, ∀ w0, doLayout v w0 ≠ none)
    (hfuel : (workingSet w).length + 2 ≤ fuel) :
    (resize doLayout fuel w).log = vs ∧
    (∀ v ∈ vs, (resize doLayout fuel w).log.count v = 1) ∧
    (resize doLayout fuel w).outcome = .finished := by
  have hlen : (workingSet w).length = vs.length := by rw [hws]; simp
  have h := resize_objs doLayout fuel w vs hws hok (by omega)
  refine ⟨h.1, ?_, h.2⟩
  intro v hv
  rw [h.1]
  exact List.count_eq_one_of_mem (nodup_of_workingSet w vs hws) hv

/-- C3, witness: the two sibling views of `flat2` with `$.noop` hooks. -/
theorem resize_independent_in_order_witness :
    (resize noop 5 flat2).log = [0, 1] ∧
    (∀ v ∈ [0, 1], (resize noop 5 flat2).log.count v = 1) ∧
    (resize noop 5 flat2).outcome = .finished :=
  resize_independent_in_order noop 5 flat2 [0, 1] (by decide) (by decide)
    (fun _ _ _ => by simp [noop]) (by decide)

/-- C3, counterexample: the working set of `flat2` holds the two independent
views 0 and 1; with a `doLayout` that throws on view 0, one run of the handler
does not call `doLayout` on view 1 at all, so not once on each view. -/
theorem resize_independent_stops_on_throw :
    workingSet flat2 = [.obj 0, .obj 1] ∧
    (∀ a ∈ [0, 1], ∀ b ∈ [0, 1], a ≠ b → flat2.el a ∉ flat2.parents (flat2.el b)) ∧
    (resize throwsOn0 5 flat2).log = [0] ∧
    (resize throwsOn0 5 flat2).log.count 1 = 0 ∧
    (resize throwsOn0 5 flat2).log.count 1 ≠ 1 ∧
    (resize throwsOn0 5 flat2).log ≠ [0, 1] := by
  decide

/-- C4: the outer loop of the resize handler terminates (with fuel covering the
length of the working set the pass never runs out), and every iteration that
reaches the drop has chosen a view that is still in the working set, so that
`_.indexOf(views, view)` is not -1, `splice` removes exactly that view, and
the working set becomes one shorter. -/
theorem resize_drops_chosen_view (doLayout : Hook) (k : Nat) :
    (∀ (w : World) (fuel : Nat), (workingSet w).length + 2 ≤ fuel →
      (resize doLayout fuel w).outcome ≠ .outOfFuel) ∧
    (∀ (fuel : Nat) (w : World) (views : List Val) (pv : Val) (log : List Nat),
      views.length ≤ fuel →
      (resizeLoop doLayout (k + 2) fuel w views pv log).outcome ≠ .outOfFuel) ∧
    (∀ (w w' : World) (views views' : List Val) (pv pv' : Val) (v : Nat),
      resizeIter doLayout (k + 2) w views pv = .next w' views' pv' v →
      Val.obj v ∈ views ∧ indexOf views (.obj v) ≠ -1 ∧
      views' = splice views (indexOf views (.obj v)) ∧
      views' = views.erase (.obj v) ∧ views'.length + 1 = views.length) := by
  refine ⟨?_, resizeLoop_fuel doLayout k, ?_⟩
  · intro w fuel hfuel
    obtain ⟨j, rfl⟩ : ∃ j, fuel = j + 2 := ⟨fuel - 2, by omega⟩
    exact resizeLoop_fuel doLayout j (j + 2) w (workingSet w) .undefined [] (by omega)
  · intro w w' views views' pv pv' v h
    obtain ⟨rest, hv, hv'⟩ := resizeIter_next doLayout k w w' views views' pv pv' v h
    subst hv hv'
    refine ⟨List.mem_cons_self _ _, indexOf_ne_neg_one (List.mem_cons_self _ _), ?_, ?_, ?_⟩
    · rw [indexOf_head, splice_zero]
    · simp
    · simp

/-- C4, witness: the first iteration on the working set of `nested3`. -/
theorem resize_drops_chosen_view_witness :
    resizeIter noop 2 nested3 [.obj 0, .obj 1, .obj 2] .undefined
      = .next nested3 [.obj 1, .obj 2] .null 0 ∧
    (Val.obj 0 ∈ [Val.obj 0, .obj 1, .obj 2] ∧
      indexOf [.obj 0, .obj 1, .obj 2] (.obj 0) ≠ -1 ∧
      [Val.obj 1, .obj 2] = splice [.obj 0, .obj 1, .obj 2]
        (indexOf [.obj 0, .obj 1, .obj 2] (.obj 0)) ∧
      [Val.obj 1, .obj 2] = [Val.obj 0, .obj 1, .obj 2].erase (.obj 0) ∧
      [Val.obj 1, .obj 2].length + 1 = [Val.obj 0, .obj 1, .obj 2].length) ∧
    (resize noop 5 nested3).outcome ≠ .outOfFuel :=
  ⟨rfl,
    (resize_drops_chosen_view noop 0).2.2 nested3 nested3 _ _ .undefined .null 0 rfl,
    (resize_drops_chosen_view noop 0).1 nested3 5 (by decide)⟩

/-! ## Working set: the claim -/

/-- C6: the list returned by `$.fn.views` has no two identical entries, holds
exactly the values `view()` yields for the nodes of the input, and orders them
by the position of their first occurrence among those values; the working set
of the resize handler is this list for the marker-classed nodes of the
document. -/
theorem views_dedup_first_seen (w : World) (nodes : List Nat) :
    (views w nodes).Nodup ∧
    (∀ x, x ∈ views w nodes ↔ x ∈ nodes.map (fun n => view w (some n))) ∧
    (views w nodes).Pairwise (fun x y =>
      (nodes.map (fun n => view w (some n))).indexOf x
        < (nodes.map (fun n => view w (some n))).indexOf y) ∧
    workingSet w = views w (w.order.filter w.reg.marker) := by
  refine ⟨viewsLoop_nodup w nodes [] List.nodup_nil, ?_, ?_, rfl⟩
  · intro x
    simpa [views] using viewsLoop_mem w nodes [] x
  · have h := viewsLoop_order w nodes [] [] (fun x => Iff.rfl) List.Pairwise.nil
    simpa [views] using h

/-! ## Registry lookups: the claims -/

theorem find?_skip (p : Nat → Bool) :
    ∀ (pre : List Nat) (n : Nat) (rest : List Nat),
      (∀ m ∈ pre, p m = false) → p n = true → (pre ++ n :: rest).find? p = some n := by
  intro pre
  induction pre with
  | nil => intro n rest _ hn; simp [List.find?, hn]
  | cons a pre ih =>
    intro n rest hpre hn
    have ha : p a = false := hpre a (List.mem_cons_self a pre)
    simp only [List.cons_append, List.find?, ha]
    exact ih n rest (fun m hm => hpre m (List.mem_cons_of_mem a hm)) hn

/-- C5 (as amended): after `_render` has attached view V to node N,
`$(N).view()` is V, and `$(d).view()` is V for every strict descendant d of N
such that no node on the path from d up to, but excluding, N has a registry
entry or carries the marker class. -/
theorem view_after_attach (w : World) (N V : Nat) :
    view (attachView w N V) (some N) = .obj V ∧
    ∀ (d : Nat) (pre rest : List Nat),
      (attachView w N V).parents d = pre ++ N :: rest →
      (∀ m ∈ d :: pre, (attachView w N V).reg.data m = none ∧
        (attachView w N V).reg.marker m = false) →
      view (attachView w N V) (some d) = .obj V := by
  have hdata : (attachView w N V).reg.data N = some V := by simp [attachView]
  have hmark : (attachView w N V).reg.marker N = true := by simp [attachView]
  have hN : jqData (attachView w N V) (some N) = .obj V := by simp [jqData, hdata]
  constructor
  · simp [view, hN, Val.or, Val.truthy]
  · intro d pre rest hpar hpath
    have hd : jqData (attachView w N V) (some d) = .undefined := by
      simp [jqData, (hpath d (List.mem_cons_self d pre)).1]
    have hc : closest (attachView w N V) (some d) = some N := by
      simp only [closest, hpar]
      exact find?_skip _ (d :: pre) N rest (fun m hm => (hpath m hm).2) hmark
    simp [view, hd, hc, hN, Val.or, Val.truthy]

/-- C5, witness: view 7 attached to the root node 0 of `plain3`; node 2 lies
below node 1 below node 0 and neither is registered or marker-classed. -/
theorem view_after_attach_witness :
    view (attachView plain3 0 7) (some 0) = .obj 7 ∧
    view (attachView plain3 0 7) (some 2) = .obj 7 :=
  ⟨(view_after_attach plain3 0 7).1,
    (view_after_attach plain3 0 7).2 2 [1] [] rfl (by decide)⟩

/-- C5, counterexample: in `strayMarker`, view 7 is attached to node 0; node 2
is a strict descendant of node 0 and neither node 2 nor the node 1 between
them has a registry entry, yet `$(2).view()` is `null`, because `closest`
stops at node 1, which carries the marker class. -/
theorem view_stops_at_stray_marker :
    (attachView strayMarker 0 7).parents 2 = [1] ++ 0 :: [] ∧
    (∀ m ∈ [2, 1], (attachView strayMarker 0 7).reg.data m = none) ∧
    view (attachView strayMarker 0 7) (some 0) = .obj 7 ∧
    view (attachView strayMarker 0 7) (some 2) = .null ∧
    view (attachView strayMarker 0 7) (some 2) ≠ .obj 7 := by
  decide

/-- C7: `parentView()` is a total lookup (it cannot throw). It is `null` for a
view whose root node has no parent node, it is `null` for a view none of whose
strict ancestor nodes has a registry entry, and whenever the root node has a
parent node it is what `view()` returns for that parent node. -/
theorem parentView_lookup (w : World) (v : Nat) :
    (w.parents (w.el v) = [] → parentView w v = .null) ∧
    ((∀ p rest, w.parents (w.el v) = p :: rest → w.parents p = rest) →
      (∀ a ∈ w.parents (w.el v), w.reg.data a = none) → parentView w v = .null) ∧
    (∀ p, parent w (w.el v) = some p → parentView w v = view w (some p)) := by
  refine ⟨?_, ?_, ?_⟩
  · intro h
    simp [parentView, parent, h, view, jqData, closest, Val.or, Val.truthy]
  · intro hco hnone
    cases hp : w.parents (w.el v) with
    | nil => simp [parentView, parent, hp, view, jqData, closest, Val.or, Val.truthy]
    | cons p rest =>
      have hrest : w.parents p = rest := hco p rest hp
      have hall : ∀ a ∈ p :: rest, w.reg.data a = none := by
        intro a ha
        exact hnone a (hp ▸ ha)
      have h1 : jqData w (some p) = .undefined := by
        simp [jqData, hall p (List.mem_cons_self p rest)]
      have h2 : jqData w (closest w (some p)) = .undefined := by
        cases hc : closest w (some p) with
        | none => rfl
        | some c =>
          have hmem : c ∈ p :: rest := by
            simp only [closest, hrest] at hc
            exact List.mem_of_find?_eq_some hc
          simp [jqData, hall c hmem]
      simp [parentView, parent, hp, view, h1, h2, Val.or, Val.truthy]
  · intro p hp
    simp [parentView, hp]

/-- C7, witness: view 0 of `flat2`, whose only ancestor (node 5) is not
registered, and view 1 of `nested3`, whose parent node is node 0. -/
theorem parentView_lookup_witness :
    parentView flat2 0 = .null ∧ parentView nested3 1 = view nested3 (some 0) :=
  ⟨(parentView_lookup flat2 0).2.1
      (fun p rest h => by
        have h5 : p = 5 ∧ rest = [] := by
          have h' : [5] = p :: rest := h
          simpa [eq_comm] using h'
        rw [h5.1, h5.2]
        rfl)
      (by decide),
    (parentView_lookup nested3 1).2.2 0 rfl⟩

/-! ## Construction: the claims -/

theorem resolveRoot_reg (env : Env) (o : Options) (v : Nat) (st : CState) :
    (resolveRoot env o v st).1.reg = st.reg := by
  unfold resolveRoot
  cases o.template with
  | none => rfl
  | some t =>
    simp only
    split
    · rfl
    · split
      · split <;> rfl
      · rfl

theorem resolveRoot_lifecycle (env : Env) (o : Options) (v : Nat) (st : CState) :
    (resolveRoot env o v st).1.trace.filter Event.isLifecycle
      = st.trace.filter Event.isLifecycle ∧
    (resolveRoot env o v st).1.trace.filter Event.isRegistryWrite
      = st.trace.filter Event.isRegistryWrite := by
  unfold resolveRoot
  cases o.template with
  | none => simp [Event.isLifecycle, Event.isRegistryWrite]
  | some t =>
    simp only
    split
    · exact ⟨rfl, rfl⟩
    · split
      · split <;> cases t <;> simp [Event.isLifecycle, Event.isRegistryWrite]
      · cases t <;> simp [Event.isLifecycle, Event.isRegistryWrite]

/-- A template whose markup does not parse to exactly one top-level node makes
the root resolution fail. -/
theorem resolveRoot_bad_template (env : Env) (o : Options) (v : Nat) (st : CState)
    (t : Template) (ht : o.template = some t) (hbad : (env.parse t.markup).length ≠ 1) :
    ∃ e, (resolveRoot env o v st).2 = .error e ∧ (o.el = none → e = .singleRoot) := by
  unfold resolveRoot
  simp only [ht]
  cases hel : o.el with
  | some n => exact ⟨.attachTemplated, by simp, by simp⟩
  | none =>
    refine ⟨.singleRoot, ?_, fun _ => rfl⟩
    simp only [Option.isSome_none, Bool.false_eq_true, if_false]
    split
    · split
      · next n hp => simp [hp] at hbad
      · rfl
    · rfl

theorem placement_lifecycle (o : Options) (root : Option Nat) :
    (placement o root).filter Event.isLifecycle = [] := by
  unfold placement
  split <;> simp [Event.isLifecycle]

theorem connectModel_lifecycle (o : Options) (v : Nat) :
    (connectModel o v).filter Event.isLifecycle = [] := by
  unfold connectModel
  split
  · split <;> simp [Event.isLifecycle]
  · simp

/-- When `_render` fails in the root resolution it returns the state of the
root resolution. -/
theorem _render_of_resolve_error (env : Env) (o : Options) (v : Nat) (st : CState) (e : Err)
    (h : (resolveRoot env o v st).2 = .error e) :
    _render env o v st = ((resolveRoot env o v st).1, .error e) := by
  unfold _render
  cases hr : resolveRoot env o v st with
  | mk st1 r =>
    rw [hr] at h
    simp only at h
    subst h
    rfl

/-- When `_render` succeeds it has attached the view to the resolved root and
called `onRender` after the two registry writes. -/
theorem _render_ok (env : Env) (o : Options) (v : Nat) (st : CState) (n : Option Nat)
    (h : (_render env o v st).2 = .ok n) :
    (_render env o v st).1.reg = attach env st.reg n v ∧
    (_render env o v st).1.trace.filter Event.isLifecycle
      = st.trace.filter Event.isLifecycle ++ [.dataSet n v, .addMarker n, .onRender v] := by
  have hreg := resolveRoot_reg env o v st
  have hlife := (resolveRoot_lifecycle env o v st).1
  unfold _render at h ⊢
  cases hr : resolveRoot env o v st with
  | mk st1 r =>
    rw [hr] at h hreg hlife
    simp only at hreg hlife
    cases r with
    | error e => simp at h
    | ok m =>
      simp only at h ⊢
      cases hon : env.onRenderOk with
      | false => simp [hon] at h
      | true =>
        simp only [hon, if_true, Res.ok.injEq] at h ⊢
        subst h
        refine ⟨by rw [hreg], ?_⟩
        simp [List.filter_append, placement_lifecycle, connectModel_lifecycle, hlife,
          Event.isLifecycle]

/-- C8: when the template is set and its rendered markup has zero or at least
two top-level nodes, construction fails with an error (the single-root error
of `_render` whenever `el` is not set as well and `initialize` returned), the
registry is left as it was, and no registry entry or marker class has been
written. -/
theorem construct_rejects_bad_template (env : Env) (o : Options) (v : Nat) (reg : Registry)
    (t : Template) (ht : o.template = some t)
    (hbad : (env.parse t.markup).length = 0 ∨ 2 ≤ (env.parse t.markup).length) :
    (∃ e, (construct env o v reg).2 = .error e ∧
      (env.initOk = true → o.el = none → e = .singleRoot)) ∧
    (construct env o v reg).1.reg = reg ∧
    (construct env o v reg).1.trace.filter Event.isRegistryWrite = [] := by
  cases hinit : env.initOk with
  | false => simp [construct, hinit, Event.isRegistryWrite]
  | true =>
    obtain ⟨e, he, hsingle⟩ :=
      resolveRoot_bad_template env o v ⟨reg, [.initCall v]⟩ t ht (by omega)
    have hr := _render_of_resolve_error env o v ⟨reg, [.initCall v]⟩ e he
    have hc : construct env o v reg
        = ((resolveRoot env o v ⟨reg, [.initCall v]⟩).1, .error e) := by
      simp [construct, hinit, hr]
    rw [hc]
    refine ⟨⟨e, rfl, fun _ hel => hsingle hel⟩, ?_, ?_⟩
    · exact resolveRoot_reg env o v ⟨reg, [.initCall v]⟩
    · rw [(resolveRoot_lifecycle env o v ⟨reg, [.initCall v]⟩).2]
      simp [Event.isRegistryWrite]

/-- C8, witness: a string template with two top-level nodes under `calmEnv`. -/
theorem construct_rejects_bad_template_witness :
    (∃ e, (construct calmEnv twoRootOptions 7 emptyReg).2 = .error e ∧
      (calmEnv.initOk = true → twoRootOptions.el = none → e = .singleRoot)) ∧
    (construct calmEnv twoRootOptions 7 emptyReg).1.reg = emptyReg ∧
    (construct calmEnv twoRootOptions 7 emptyReg).1.trace.filter Event.isRegistryWrite = [] :=
  construct_rejects_bad_template calmEnv twoRootOptions 7 emptyReg
    (.str markupTwo) rfl (Or.inr (by decide))

/-- C9: when both `el` and `template` are set, construction fails with an
error (the one of `_render` about attaching templated views whenever
`initialize` returned), whatever the template, and the only step taken is the
call of `initialize`: the template has not been rendered and the registry is
left as it was. -/
theorem construct_rejects_el_with_template (env : Env) (o : Options) (v : Nat)
    (reg : Registry) (n : ElSpec) (t : Template) (hel : o.el = some n)
    (ht : o.template = some t) :
    (∃ e, (construct env o v reg).2 = .error e ∧
      (env.initOk = true → e = .attachTemplated)) ∧
    (construct env o v reg).1.reg = reg ∧
    (construct env o v reg).1.trace = [.initCall v] := by
  cases hinit : env.initOk with
  | false => simp [construct, hinit]
  | true =>
    have hres : resolveRoot env o v ⟨reg, [.initCall v]⟩
        = (⟨reg, [.initCall v]⟩, .error .attachTemplated) := by
      simp [resolveRoot, ht, hel]
    have hr := _render_of_resolve_error env o v ⟨reg, [.initCall v]⟩ .attachTemplated
      (by rw [hres])
    rw [hres] at hr
    simp [construct, hinit, hr]

/-- C9, witness: `el` and a well-formed one-root template given together. -/
theorem construct_rejects_el_with_template_witness :
    (∃ e, (construct calmEnv elAndTemplate 7 emptyReg).2 = .error e ∧
      (calmEnv.initOk = true → e = .attachTemplated)) ∧
    (construct calmEnv elAndTemplate 7 emptyReg).1.reg = emptyReg ∧
    (construct calmEnv elAndTemplate 7 emptyReg).1.trace = [.initCall 7] :=
  construct_rejects_el_with_template calmEnv elAndTemplate 7 emptyReg (.node 3)
    (.str markupOne) rfl rfl

/-- C10 (as amended): in every successful construction of view `v`, the
lifecycle steps happen in the order: `$el.data(DATA_ID, this)`,
`$el.addClass(MARKER_CLASS)`, `onRender`, `createChildren`, `doLayout`, each
exactly once; when the constructor returns, `doLayout` has been called exactly
once, the root node is registered to the view if it is a node on which jQuery
stores data, and it carries the marker class if it is an element. -/
theorem construct_lifecycle_order (env : Env) (o : Options) (v : Nat) (reg : Registry)
    (root : Option Nat) (h : (construct env o v reg).2 = .ok root) :
    (construct env o v reg).1.trace.filter Event.isLifecycle
      = [.dataSet root v, .addMarker root, .onRender v, .createChildren v, .doLayout v] ∧
    (∀ n, root = some n → env.acceptsData n = true →
      (construct env o v reg).1.reg.data n = some v) ∧
    (∀ n, root = some n → env.isElement n = true →
      (construct env o v reg).1.reg.marker n = true) ∧
    (construct env o v reg).1.trace.count (.doLayout v) = 1 := by
  have key : (construct env o v reg).1.trace.filter Event.isLifecycle
      = [.dataSet root v, .addMarker root, .onRender v, .createChildren v, .doLayout v] ∧
      (construct env o v reg).1.reg = attach env reg root v := by
    unfold construct at h ⊢
    cases hinit : env.initOk with
    | false => simp [hinit] at h
    | true =>
      simp only [hinit, if_true] at h ⊢
      cases hr : _render env o v ⟨reg, [.initCall v]⟩ with
      | mk st1 r =>
        rw [hr] at h
        cases r with
        | error e => simp at h
        | ok m =>
          have hok := _render_ok env o v ⟨reg, [.initCall v]⟩ m (by rw [hr])
          rw [hr] at hok
          simp only at hok h ⊢
          cases hcc : env.createChildrenOk with
          | false => simp [hcc] at h
          | true =>
            cases hdl : env.doLayoutOk with
            | false => simp [hcc, hdl] at h
            | true =>
              simp only [hcc, hdl, if_true, Res.ok.injEq] at h ⊢
              subst h
              refine ⟨?_, hok.1⟩
              cases o.className <;>
                simp [List.filter_append, hok.2, Event.isLifecycle]
  refine ⟨key.1, ?_, ?_, ?_⟩
  · intro n hn hacc
    rw [key.2, hn]
    simp [attach, hacc]
  · intro n hn hel
    rw [key.2, hn]
    simp [attach, hel]
  · have hc : (construct env o v reg).1.trace.count (.doLayout v)
        = ((construct env o v reg).1.trace.filter Event.isLifecycle).count (.doLayout v) :=
      (List.count_filter (by simp [Event.isLifecycle])).symm
    rw [hc, key.1]
    simp [List.count_cons]

/-- C10, witness: a construction from the one-element template `<a></a>`. -/
theorem construct_lifecycle_order_witness :
    (construct calmEnv oneRootOptions 7 emptyReg).1.trace.filter Event.isLifecycle
      = [.dataSet (some 4) 7, .addMarker (some 4), .onRender 7, .createChildren 7,
          .doLayout 7] ∧
    (∀ n, some 4 = some n → calmEnv.acceptsData n = true →
      (construct calmEnv oneRootOptions 7 emptyReg).1.reg.data n = some 7) ∧
    (∀ n, some 4 = some n → calmEnv.isElement n = true →
      (construct calmEnv oneRootOptions 7 emptyReg).1.reg.marker n = true) ∧
    (construct calmEnv oneRootOptions 7 emptyReg).1.trace.count (.doLayout 7) = 1 :=
  construct_lifecycle_order calmEnv oneRootOptions 7 emptyReg (some 4) (by decide)

/-- C10, counterexample: two successful constructions after which the root is
not registered. With `el` a selector that matches no node, `$el` is empty and
no node at all receives an entry or the marker class. With the template
`<!--c-->` the single top-level node is a comment (node 6), which passes the
length test of `_render`; jQuery stores no data and adds no class on it. -/
theorem construct_unregistered_root :
    (construct calmEnv noMatchOptions 7 emptyReg).2 = .ok none ∧
    (∀ n, (construct calmEnv noMatchOptions 7 emptyReg).1.reg.data n = none) ∧
    (∀ n, (construct calmEnv noMatchOptions 7 emptyReg).1.reg.marker n = false) ∧
    (construct calmEnv commentOptions 7 emptyReg).2 = .ok (some 6) ∧
    (construct calmEnv commentOptions 7 emptyReg).1.reg.data 6 = none ∧
    (construct calmEnv commentOptions 7 emptyReg).1.reg.marker 6 = false :=
  ⟨by decide, fun _ => rfl, fun _ => rfl, by decide, by decide, by decide⟩

end StickyView
